import Mathlib

/-
Verification of the product-management core (src/index.js) against its
natural-language specification.

The JavaScript source is shallowly embedded below.  Modelling decisions:

* A product record is a structure of string fields plus an optional numeric
  `id` (imported rows may lack the `id` key; JS `undefined` is `none`).
  Absent string fields are modelled as the empty string, matching the
  form's initial state and the JS truthiness tests (`!value`) the code uses.
* Calendar dates are `DateT` triples (year, month 1..12, day 1..31).
  `new Date("YYYY-MM-DD")` parses to UTC midnight; the process is assumed
  to run with a UTC local time zone, so `getMonth`/`setMonth` act on the
  same calendar fields.  `Date.prototype.setMonth` does **not** clamp the
  day-of-month: an out-of-range day carries over into the following month
  (Feb 31 becomes Mar 2).  `normDay` implements exactly that carry; since
  the parsed day is at most 31 and every month has at least 28 days, a
  single carry step is always enough.
* Instants ("now", `new Date()`) are integer milliseconds since the Unix
  epoch; `dateMs` is the standard civil-date-to-epoch-days conversion
  times 86400000, matching `Date.getTime()` of a parsed date string.
* `calculateRenewalDate` returns `Option String`: `some s` is a normal
  return, `none` models the `RangeError` that `toISOString` throws when
  `setMonth` was fed a `NaN` (non-numeric `validityMonths` string).
-/

structure DateT where
  y : Int
  m : Nat
  d : Nat
deriving DecidableEq

def isLeap (y : Int) : Bool :=
  (y % 4 == 0 && y % 100 != 0) || (y % 400 == 0)

def daysInMonth (y : Int) (m : Nat) : Nat :=
  if m = 2 then (if isLeap y then 29 else 28)
  else if m = 4 ∨ m = 6 ∨ m = 9 ∨ m = 11 then 30
  else 31

/-- Days since 1970-01-01 of a civil date (Gregorian, proleptic).  This is
the classic days-from-civil algorithm, the arithmetic a JS engine performs
when materialising a Date from year/month/day fields. -/
def epochDays (dt : DateT) : Int :=
  let y : Int := if dt.m ≤ 2 then dt.y - 1 else dt.y
  let era : Int := Int.ediv y 400
  let yoe : Int := y - era * 400
  let mp : Int := if dt.m > 2 then (dt.m : Int) - 3 else (dt.m : Int) + 9
  let doy : Int := Int.ediv (153 * mp + 2) 5 + (dt.d : Int) - 1
  let doe : Int := yoe * 365 + Int.ediv yoe 4 - Int.ediv yoe 100 + doy
  era * 146097 + doe - 719468

/-- Milliseconds since the epoch of UTC midnight of a civil date:
`new Date("YYYY-MM-DD").getTime()`. -/
def dateMs (dt : DateT) : Int :=
  epochDays dt * 86400000

def digitsToNat (ds : List Char) : Nat :=
  ds.foldl (fun a c => a * 10 + (c.toNat - 48)) 0

/-- JS `parseInt` on the strings the app feeds it: optional sign followed by
a longest digit run; `none` is `NaN` (no leading digits). -/
def parseIntJS (s : String) : Option Int :=
  let cs := s.toList
  let signRest : Int × List Char :=
    match cs with
    | '-' :: t => (-1, t)
    | '+' :: t => (1, t)
    | t => (1, t)
  let ds := signRest.2.takeWhile Char.isDigit
  if ds.isEmpty then none
  else some (signRest.1 * (digitsToNat ds : Int))

/-- `new Date(s)` for an ISO `"YYYY-MM-DD"` string.  ISO parsing validates
the components against the real calendar; anything else is an Invalid
Date (`none`). -/
def parseDate (s : String) : Option DateT :=
  match s.toList with
  | [y1, y2, y3, y4, '-', m1, m2, '-', d1, d2] =>
    if ([y1, y2, y3, y4, m1, m2, d1, d2].all Char.isDigit) then
      let y : Int := (digitsToNat [y1, y2, y3, y4] : Int)
      let m := digitsToNat [m1, m2]
      let d := digitsToNat [d1, d2]
      if 1 ≤ m ∧ m ≤ 12 ∧ 1 ≤ d ∧ d ≤ daysInMonth y m then some ⟨y, m, d⟩ else none
    else none
  | _ => none

/-- Year of the month index produced by `setMonth(getMonth() + n)`. -/
def targetYear (y : Int) (m : Nat) (n : Int) : Int :=
  y + Int.ediv ((m : Int) - 1 + n) 12

/-- Month (1..12) of the month index produced by `setMonth(getMonth() + n)`. -/
def targetMonth (m : Nat) (n : Int) : Nat :=
  (Int.emod ((m : Int) - 1 + n) 12).toNat + 1

/-- Normalise a day-of-month that may exceed the target month's length by
carrying the excess into the next month — the JS `Date` overflow rule.
The incoming day is at most 31, so one carry step suffices. -/
def normDay (y : Int) (m d : Nat) : DateT :=
  if d ≤ daysInMonth y m then ⟨y, m, d⟩
  else if m = 12 then ⟨y + 1, 1, d - daysInMonth y m⟩
  else ⟨y, m + 1, d - daysInMonth y m⟩

/-- `date.setMonth(date.getMonth() + n)` on a parsed date. -/
def addMonths (dt : DateT) (n : Int) : DateT :=
  normDay (targetYear dt.y dt.m n) (targetMonth dt.m n) dt.d

def pad2 (n : Nat) : String :=
  if n < 10 then "0" ++ toString n else toString n

def pad4 (n : Nat) : String :=
  if n < 10 then "000" ++ toString n
  else if n < 100 then "00" ++ toString n
  else if n < 1000 then "0" ++ toString n
  else toString n

/-- `date.toISOString().split("T")[0]` for years 0..9999, the range the
application exercises. -/
def formatDate (dt : DateT) : String :=
  pad4 dt.y.toNat ++ "-" ++ pad2 dt.m ++ "-" ++ pad2 dt.d

/-- src/index.js `calculateRenewalDate`.  The guard `!activationDate ||
!validityMonths` on string inputs is an empty-string test (the form feeds
strings; `"0"` is truthy in JS).  `none` models the exception thrown by
`toISOString` when `parseInt` yielded `NaN` or the date string was invalid. -/
def calculateRenewalDate (activationDate validityMonths : String) : Option String :=
  if activationDate == "" || validityMonths == "" then some ""
  else
    match parseDate activationDate, parseIntJS validityMonths with
    | some dt, some n => some (formatDate (addMonths dt n))
    | _, _ => none

/-- src/index.js `isExpired`: `!renewalDate` returns false; otherwise
`new Date(renewalDate) < new Date()` — an invalid date compares as `NaN`,
which is false. -/
def isExpired (renewalDate : String) (now : Int) : Bool :=
  if renewalDate == "" then false
  else
    match parseDate renewalDate with
    | some dt => decide (dateMs dt < now)
    | none => false

structure Product where
  id : Option Nat := none
  serialNumber : String := ""
  oemSerialNumber : String := ""
  productName : String := ""
  model : String := ""
  networkType : String := "4G"
  cableLength : String := ""
  installationDate : String := ""
  activationDate : String := ""
  validityPeriod : String := ""
  renewalDate : String := ""
  deviceUID : String := ""
  simProvider : String := "VI"
  simNumber : String := ""
  channelPartner : String := ""
  endUserName : String := ""
  industryCategory : String := ""
deriving DecidableEq

/-- `String(product[column] || "")`: field access by column name, absent or
unknown keys giving the empty string, `id` rendered as its number. -/
def fieldValue (p : Product) (f : String) : String :=
  if f == "serialNumber" then p.serialNumber
  else if f == "oemSerialNumber" then p.oemSerialNumber
  else if f == "productName" then p.productName
  else if f == "model" then p.model
  else if f == "networkType" then p.networkType
  else if f == "cableLength" then p.cableLength
  else if f == "installationDate" then p.installationDate
  else if f == "activationDate" then p.activationDate
  else if f == "validityPeriod" then p.validityPeriod
  else if f == "renewalDate" then p.renewalDate
  else if f == "deviceUID" then p.deviceUID
  else if f == "simProvider" then p.simProvider
  else if f == "simNumber" then p.simNumber
  else if f == "channelPartner" then p.channelPartner
  else if f == "endUserName" then p.endUserName
  else if f == "industryCategory" then p.industryCategory
  else if f == "id" then (match p.id with | some n => toString n | none => "")
  else ""

/-- `Object.values(product)` in the key insertion order of the form data,
with `id` (when present) added last by the spread in `saveProduct`. -/
def objectValues (p : Product) : List String :=
  [p.serialNumber, p.oemSerialNumber, p.productName, p.model, p.networkType,
   p.cableLength, p.installationDate, p.activationDate, p.validityPeriod,
   p.renewalDate, p.deviceUID, p.simProvider, p.simNumber, p.channelPartner,
   p.endUserName, p.industryCategory] ++
  (match p.id with | some n => [toString n] | none => [])

def startsWithL : List Char → List Char → Bool
  | [], _ => true
  | _ :: _, [] => false
  | a :: as, b :: bs => a == b && startsWithL as bs

def occursIn (needle : List Char) : List Char → Bool
  | [] => needle.isEmpty
  | c :: t => startsWithL needle (c :: t) || occursIn needle t

def strLower (s : String) : String :=
  s.map Char.toLower

/-- JS `hay.toLowerCase().includes(term.toLowerCase())`. -/
def containsCI (hay term : String) : Bool :=
  occursIn (strLower term).toList (strLower hay).toList

/-- The predicate of src/index.js `filteredProducts`. -/
def matchesProduct (term col : String) (p : Product) : Bool :=
  if term == "" then true
  else if col == "all" then (objectValues p).any (fun v => containsCI v term)
  else containsCI (fieldValue p col) term

/-- src/index.js `filteredProducts`. -/
def filteredProducts (products : List Product) (term col : String) : List Product :=
  products.filter (matchesProduct term col)

/-- src/index.js `expiredProducts`. -/
def expiredProducts (products : List Product) (now : Int) : List Product :=
  products.filter (fun p => isExpired p.renewalDate now)

/-- src/index.js `saveProduct` (the state transition on `products`): edit
replaces the record with the matching `id`, keeping that `id`; add appends
with `id := Date.now()` (`nowId`). -/
def saveProduct (products : List Product) (editingProduct : Option Product)
    (productData : Product) (nowId : Nat) : List Product :=
  match editingProduct with
  | some e =>
    products.map (fun p => if p.id == e.id then { productData with id := e.id } else p)
  | none => products ++ [{ productData with id := some nowId }]

/-- src/index.js `deleteProduct` after the user confirms. -/
def deleteProduct (products : List Product) (i : Option Nat) : List Product :=
  products.filter (fun p => p.id != i)

/-- src/index.js `importFromExcel`: the parsed rows are stored verbatim via
`setProducts(data)`. -/
def importFromExcel (rows : List Product) : List Product :=
  rows

/-- The persist effect (src/index.js lines 20-24): the snapshot handed to
`localStorage.setItem` (`some products`), or `none` when the guard
`products.length > 0` suppresses the save. -/
def persistEffect (products : List Product) : Option (List Product) :=
  if products.length > 0 then some products else none

/-- The required fields of src/index.js `validateForm`, in check order. -/
def requiredFields : List String :=
  ["serialNumber", "productName", "activationDate", "validityPeriod",
   "deviceUID", "endUserName", "industryCategory"]

/-- src/index.js `validateForm`: the keys of `newErrors`, i.e. the required
fields whose form value is empty, in check order. -/
def validateForm (p : Product) : List String :=
  requiredFields.filter (fun f => fieldValue p f == "")

/-- src/index.js `handleSubmit`: saves only when `validateForm` reports no
errors, otherwise leaves the record set alone. -/
def handleSubmit (products : List Product) (editing : Option Product)
    (formData : Product) (nowId : Nat) : List Product :=
  if (validateForm formData).isEmpty then saveProduct products editing formData nowId
  else products

/-- src/index.js `industryAnalytics` accumulator step:
`acc[industry] = (acc[industry] || 0) + 1` on a JS object, whose keys are
unique — the first (only) matching entry is bumped in place, a new key is
appended. -/
def bump : List (String × Nat) → String → List (String × Nat)
  | [], k => [(k, 1)]
  | e :: rest, k =>
    if e.1 == k then (e.1, e.2 + 1) :: rest else e :: bump rest k

/-- `product.industryCategory || "Uncategorized"`. -/
def industryKey (p : Product) : String :=
  if p.industryCategory == "" then "Uncategorized" else p.industryCategory

/-- src/index.js `industryAnalytics`: the reduce over `products`, the JS
object represented as an insertion-ordered association list. -/
def industryAnalytics (products : List Product) : List (String × Nat) :=
  products.foldl (fun acc p => bump acc (industryKey p)) []

def countsSum : List (String × Nat) → Nat
  | [] => 0
  | e :: rest => e.2 + countsSum rest

def getCount (k : String) : List (String × Nat) → Nat
  | [] => 0
  | e :: rest => (if e.1 == k then e.2 else 0) + getCount k rest

/-- A well-formed stored record, used as concrete test data. -/
def sampleProduct : Product :=
  { id := some 1, serialNumber := "SN1", productName := "Alpha",
    deviceUID := "D1", activationDate := "2024-01-01", validityPeriod := "12",
    renewalDate := "2025-01-01", endUserName := "Acme", industryCategory := "Water" }

/-- An edit target whose `id` is absent from the record set. -/
def absentEdit : Product :=
  { sampleProduct with id := some 99 }

/-- A legacy spreadsheet row: derivable renewal date not yet present, no id. -/
def importedRow : Product :=
  { serialNumber := "SN9", productName := "Gamma", deviceUID := "D9",
    activationDate := "2024-01-01", validityPeriod := "12",
    endUserName := "Beta Corp", industryCategory := "Agri" }

/-- A legacy spreadsheet row with a stored renewal date but no validity
period. -/
def legacyRow : Product :=
  { serialNumber := "SN5", renewalDate := "2020-01-01" }

/-- A form submission missing the end-user name. -/
def missingEndUser : Product :=
  { sampleProduct with id := none, endUserName := "" }

/-- Claim C1 counterexample: `calculateRenewalDate` does not clamp to the
last day of the target month; adding one month to 2024-01-31 yields
2024-03-02 (day overflow carried into March), not the claimed 2024-02-29. -/
theorem renewal_no_clamp_cex :
    calculateRenewalDate "2024-01-31" "1" = some "2024-03-02" ∧
    ("2024-03-02" : String) ≠ "2024-02-29" := by
  exact ⟨by decide, by decide⟩

/-- Claim C1 (amended): for a present activation date and positive integer
validity, the result is activation plus that many calendar months with the
day-of-month preserved whenever it is valid in the target month; when it is
not valid the excess days carry over into the following month (JS
`setMonth` semantics), as in the two concrete runs below. -/
theorem renewal_addMonths_day_preserved :
    (∀ (dt : DateT) (n : Int),
        dt.d ≤ daysInMonth (targetYear dt.y dt.m n) (targetMonth dt.m n) →
        addMonths dt n = ⟨targetYear dt.y dt.m n, targetMonth dt.m n, dt.d⟩) ∧
    calculateRenewalDate "2024-01-31" "1" = some "2024-03-02" ∧
    calculateRenewalDate "2024-03-15" "12" = some "2025-03-15" := by
  refine ⟨?_, by decide, by decide⟩
  intro dt n h
  unfold addMonths normDay
  rw [if_pos h]

/-- Witness for the amended C1 theorem at activation 2024-03-15 plus 12
months. -/
theorem renewal_addMonths_day_preserved_witness :
    addMonths ⟨2024, 3, 15⟩ 12 = ⟨2025, 3, 15⟩ := by
  exact (renewal_addMonths_day_preserved.1 ⟨2024, 3, 15⟩ 12 (by decide)).trans (by decide)

/-- Claim C4 counterexample: a negative `validityMonths` is truthy, so the
empty-result guard does not fire; the code subtracts a month instead of
returning empty. -/
theorem renewal_negative_not_empty_cex :
    calculateRenewalDate "2024-06-15" "-1" = some "2024-05-15" ∧
    some ("2024-05-15" : String) ≠ some "" := by
  exact ⟨by decide, by decide⟩

/-- Claim C4 (amended): the empty result is produced exactly when either
input string is empty (JS falsy); a non-empty numeric `validityMonths` that
is zero, negative, or non-integer still produces a computed date (`"0"`
adds nothing, negatives subtract, `parseInt` truncates decimals), and a
non-numeric one makes the computation throw (`none`) rather than return
empty. -/
theorem renewal_empty_iff_absent :
    (∀ a : String, calculateRenewalDate a "" = some "") ∧
    (∀ v : String, calculateRenewalDate "" v = some "") ∧
    calculateRenewalDate "2024-06-15" "0" = some "2024-06-15" ∧
    calculateRenewalDate "2024-06-15" "-1" = some "2024-05-15" ∧
    calculateRenewalDate "2024-06-15" "1.5" = some "2024-07-15" ∧
    calculateRenewalDate "2024-06-15" "abc" = none := by
  refine ⟨?_, ?_, by decide, by decide, by decide, by decide⟩
  · intro a
    simp [calculateRenewalDate]
  · intro v
    simp [calculateRenewalDate]

/-- Claim C7: `isExpired` is false on an absent renewal date, and on a
parseable renewal date it is true exactly when the date's instant is
strictly earlier than `now` (so equality at the boundary is not expired). -/
theorem isExpired_iff_strictly_earlier :
    (∀ now : Int, isExpired "" now = false) ∧
    (∀ (r : String) (dt : DateT) (now : Int), parseDate r = some dt →
        (isExpired r now = true ↔ dateMs dt < now)) := by
  constructor
  · intro now
    rfl
  · intro r dt now h
    have hr : (r == "") = false := by
      cases hbe : r == "" with
      | true =>
        exfalso
        have hr0 : r = "" := by
          exact eq_of_beq hbe
        rw [hr0] at h
        rw [show parseDate "" = none from rfl] at h
        exact Option.noConfusion h
      | false => rfl
    simp [isExpired, hr, h]

/-- Witness for C7: renewal date 2024-01-01 evaluated at the instant of
2024-06-01 — strictly earlier, hence expired. -/
theorem isExpired_iff_strictly_earlier_witness :
    isExpired "2024-01-01" (dateMs ⟨2024, 6, 1⟩) = true ↔
      dateMs ⟨2024, 1, 1⟩ < dateMs ⟨2024, 6, 1⟩ := by
  exact isExpired_iff_strictly_earlier.2 "2024-01-01" ⟨2024, 1, 1⟩ (dateMs ⟨2024, 6, 1⟩) (by decide)

/-- Claim C6 counterexample: expiry looks only at the stored `renewalDate`.
An imported row with empty `validityPeriod` but a stored past renewal date
is returned by `expiredProducts`. -/
theorem empty_validity_expired_cex :
    legacyRow.validityPeriod = "" ∧
    expiredProducts [legacyRow] (dateMs ⟨2024, 1, 1⟩) = [legacyRow] := by
  exact ⟨by decide, by decide⟩

/-- Claim C6 (amended): a record with empty `renewalDate` is never in
`expiredProducts`, whatever `now` is; emptiness of `validityPeriod` alone
does not exclude a record, because the filter reads only the stored
`renewalDate` (which bulk import can populate without a validity period). -/
theorem empty_renewal_never_expired :
    ∀ (products : List Product) (now : Int) (p : Product),
      p.renewalDate = "" → p ∉ expiredProducts products now := by
  intro products now p h hmem
  have hx := (List.mem_filter.mp hmem).2
  rw [h] at hx
  simp [isExpired] at hx

/-- Witness for the amended C6 theorem: the imported row (empty renewal
date) is not reported expired. -/
theorem empty_renewal_never_expired_witness :
    importedRow ∉ expiredProducts [importedRow] 999 := by
  exact empty_renewal_never_expired [importedRow] 999 importedRow rfl

/-- Claim C2 counterexample: bulk import stores the rows verbatim — a row
whose renewal date is derivable from its activation date and validity
period (it would be `"2025-01-01"`) is stored with the renewal date still
empty and no fresh `id` assigned. -/
theorem import_no_derivation_cex :
    importFromExcel [importedRow] = [importedRow] ∧
    importedRow.renewalDate = "" ∧
    importedRow.id = none ∧
    calculateRenewalDate importedRow.activationDate importedRow.validityPeriod =
      some "2025-01-01" := by
  exact ⟨rfl, rfl, rfl, by decide⟩

/-- Claim C2 (amended): `importFromExcel` replaces the record set with the
imported rows unchanged — existing `id`s are (trivially) preserved, but no
missing renewal date is computed and no missing `id` is assigned. -/
theorem import_stores_rows_verbatim :
    ∀ rows : List Product,
      importFromExcel rows = rows ∧
      (importFromExcel rows).map Product.renewalDate = rows.map Product.renewalDate ∧
      (importFromExcel rows).map Product.id = rows.map Product.id := by
  intro rows
  exact ⟨rfl, rfl, rfl⟩

lemma map_update_id_of_absent (e : Option Nat) (g : Product) :
    ∀ l : List Product, (∀ p ∈ l, p.id ≠ e) →
      l.map (fun p => if p.id == e then g else p) = l := by
  intro l
  induction l with
  | nil => intro _; rfl
  | cons a t ih =>
    intro h
    have ha : (a.id == e) = false := by
      simp [h a (List.mem_cons_self a t)]
    simp only [List.map_cons, ha, Bool.false_eq_true, if_false,
      ih (fun p hp => h p (List.mem_cons_of_mem a hp))]

/-- Claim C3 counterexample: with record set `[sampleProduct]` (whose only
id is 1), an update targeting id 42 and a delete of id 42 both complete
normally — returning the record set unchanged — instead of failing with a
`NotFoundError`. -/
theorem update_delete_absent_no_error_cex :
    saveProduct [sampleProduct] (some { sampleProduct with id := some 42 })
        sampleProduct 9 = [sampleProduct] ∧
    deleteProduct [sampleProduct] (some 42) = [sampleProduct] := by
  exact ⟨by decide, by decide⟩

/-- Claim C3 (amended): an update or delete that targets an `id` absent
from the record set is a silent no-op — no error of any kind is raised and
the record set is returned unchanged (no record altered or removed). -/
theorem update_delete_absent_noop :
    (∀ (products : List Product) (e formData : Product) (nowId : Nat),
        (∀ p ∈ products, p.id ≠ e.id) →
        saveProduct products (some e) formData nowId = products) ∧
    (∀ (products : List Product) (i : Option Nat),
        (∀ p ∈ products, p.id ≠ i) →
        deleteProduct products i = products) := by
  constructor
  · intro products e formData nowId h
    unfold saveProduct
    exact map_update_id_of_absent e.id { formData with id := e.id } products h
  · intro products i h
    unfold deleteProduct
    refine List.filter_eq_self.mpr ?_
    intro a ha
    simp [h a ha]

/-- Witness for the amended C3 theorem on a concrete one-record set and the
absent id 99. -/
theorem update_delete_absent_noop_witness :
    saveProduct [sampleProduct] (some absentEdit) absentEdit 5 = [sampleProduct] ∧
    deleteProduct [sampleProduct] (some 99) = [sampleProduct] := by
  exact ⟨update_delete_absent_noop.1 [sampleProduct] absentEdit absentEdit 5 (by decide),
    update_delete_absent_noop.2 [sampleProduct] (some 99) (by decide)⟩

/-- Claim C5 counterexample: deleting the only record is a Repository
mutation whose resulting set is empty, and the persist effect's
`products.length > 0` guard then skips the save entirely. -/
theorem persist_skips_empty_cex :
    deleteProduct [sampleProduct] (some 1) = [] ∧
    persistEffect (deleteProduct [sampleProduct] (some 1)) = none := by
  exact ⟨by decide, by decide⟩

/-- Claim C5 (amended): after a mutation the resulting record set is handed
to the persistence collaborator exactly when it is non-empty; a mutation
that empties the set does not invoke save (the stale previous snapshot is
left behind). -/
theorem persist_saves_nonempty (products : List Product) (h : products ≠ []) :
    persistEffect products = some products := by
  unfold persistEffect
  rw [if_pos (List.length_pos.mpr h)]

/-- Witness for the amended C5 theorem on a one-record set. -/
theorem persist_saves_nonempty_witness :
    persistEffect [sampleProduct] = some [sampleProduct] := by
  exact persist_saves_nonempty [sampleProduct] (by decide)

/-- Claim C8: a create submission with any required field empty produces an
error list containing every empty required field, and the record set (in
particular its count) is unchanged. -/
theorem create_validation_blocks :
    ∀ (products : List Product) (formData : Product) (nowId : Nat) (f : String),
      f ∈ requiredFields → fieldValue formData f = "" →
      f ∈ validateForm formData ∧
      (∀ g ∈ requiredFields, fieldValue formData g = "" → g ∈ validateForm formData) ∧
      handleSubmit products none formData nowId = products ∧
      (handleSubmit products none formData nowId).length = products.length := by
  intro products formData nowId f hf hv
  have hmem : ∀ g ∈ requiredFields, fieldValue formData g = "" → g ∈ validateForm formData := by
    intro g hg hgv
    unfold validateForm
    exact List.mem_filter.mpr ⟨hg, by simp [hgv]⟩
  have hne : validateForm formData ≠ [] := List.ne_nil_of_mem (hmem f hf hv)
  have hie : (validateForm formData).isEmpty = false := by
    cases hE : (validateForm formData).isEmpty
    · rfl
    · exact absurd (List.isEmpty_iff.mp hE) hne
  have hsub : handleSubmit products none formData nowId = products := by
    unfold handleSubmit
    rw [hie]
    rfl
  exact ⟨hmem f hf hv, hmem, hsub, by rw [hsub]⟩

/-- Witness for C8: the submission missing `endUserName` reports that field
and leaves the one-record set unchanged. -/
theorem create_validation_blocks_witness :
    "endUserName" ∈ validateForm missingEndUser ∧
    handleSubmit [sampleProduct] none missingEndUser 7 = [sampleProduct] := by
  have h := create_validation_blocks [sampleProduct] missingEndUser 7 "endUserName"
    (by decide) (by decide)
  exact ⟨h.1, h.2.2.1⟩

/-- Claim C9: searching with an empty term returns every record in original
order; for any term and column the result is a sublist of the source (the
relative order of matches equals their source order), and it holds exactly
the records the predicate matches. -/
theorem search_order_preserving :
    (∀ (products : List Product) (col : String),
        filteredProducts products "" col = products) ∧
    (∀ (products : List Product) (term col : String),
        (filteredProducts products term col).Sublist products) ∧
    (∀ (products : List Product) (term col : String) (p : Product),
        p ∈ filteredProducts products term col ↔
          p ∈ products ∧ matchesProduct term col p = true) := by
  refine ⟨?_, ?_, ?_⟩
  · intro products col
    refine List.filter_eq_self.mpr ?_
    intro a _
    simp [matchesProduct]
  · intro products term col
    exact List.filter_sublist products
  · intro products term col p
    exact List.mem_filter

lemma bump_sum (k : String) :
    ∀ acc : List (String × Nat), countsSum (bump acc k) = countsSum acc + 1 := by
  intro acc
  induction acc with
  | nil => rfl
  | cons e rest ih =>
    unfold bump
    by_cases h : (e.1 == k) = true
    · simp only [h, if_true, countsSum]
      omega
    · simp only [eq_false_of_ne_true h, Bool.false_eq_true, if_false, countsSum, ih]
      omega

lemma bump_count (k q : String) :
    ∀ acc : List (String × Nat),
      getCount q (bump acc k) = getCount q acc + (if k == q then 1 else 0) := by
  intro acc
  induction acc with
  | nil =>
    simp only [bump, getCount]
    omega
  | cons e rest ih =>
    unfold bump
    by_cases h : (e.1 == k) = true
    · rw [if_pos h]
      have he : e.1 = k := eq_of_beq h
      simp only [getCount, he]
      by_cases hq : (k == q) = true
      · simp only [hq, if_true]
        omega
      · simp only [eq_false_of_ne_true hq, Bool.false_eq_true, if_false]
        omega
    · rw [if_neg h]
      simp only [getCount, ih]
      omega

lemma industry_fold_sum :
    ∀ (ps : List Product) (acc : List (String × Nat)),
      countsSum (ps.foldl (fun a p => bump a (industryKey p)) acc) =
        countsSum acc + ps.length := by
  intro ps
  induction ps with
  | nil => intro acc; simp
  | cons p t ih =>
    intro acc
    simp only [List.foldl_cons, List.length_cons, ih (bump acc (industryKey p)),
      bump_sum]
    omega

lemma industry_fold_count (q : String) :
    ∀ (ps : List Product) (acc : List (String × Nat)),
      getCount q (ps.foldl (fun a p => bump a (industryKey p)) acc) =
        getCount q acc + (ps.filter (fun p => industryKey p == q)).length := by
  intro ps
  induction ps with
  | nil => intro acc; simp
  | cons p t ih =>
    intro acc
    simp only [List.foldl_cons, ih (bump acc (industryKey p)), bump_count]
    by_cases h : (industryKey p == q) = true
    · simp only [List.filter_cons, h, if_true, List.length_cons]
      omega
    · simp only [List.filter_cons, eq_false_of_ne_true h, Bool.false_eq_true, if_false]
      omega

lemma industryKey_uncategorized (p : Product) :
    (industryKey p == "Uncategorized") =
      (p.industryCategory == "" || p.industryCategory == "Uncategorized") := by
  unfold industryKey
  by_cases h : (p.industryCategory == "") = true
  · simp [h]
  · simp [eq_false_of_ne_true h]

/-- Claim C10: the per-industry counts sum to the number of records, and
the "Uncategorized" bucket counts exactly the records whose
`industryCategory` is missing (empty) together with those literally
labelled "Uncategorized". -/
theorem industry_distribution_total :
    ∀ products : List Product,
      countsSum (industryAnalytics products) = products.length ∧
      getCount "Uncategorized" (industryAnalytics products) =
        (products.filter
          (fun p => p.industryCategory == "" || p.industryCategory == "Uncategorized")).length := by
  intro products
  constructor
  · unfold industryAnalytics
    rw [industry_fold_sum]
    simp [countsSum]
  · unfold industryAnalytics
    rw [industry_fold_count]
    have hfc : products.filter (fun p => industryKey p == "Uncategorized") =
        products.filter
          (fun p => p.industryCategory == "" || p.industryCategory == "Uncategorized") := by
      refine List.filter_congr ?_
      intro p _
      exact industryKey_uncategorized p
    rw [hfc]
    simp [getCount]
